import Mathlib

set_option maxHeartbeats 1000000
set_option maxRecDepth 100000
set_option autoImplicit false

deriving instance DecidableEq for Except

/-!
Shallow embedding of src/ssh_push.py.

The tool's side effects are threaded explicitly: an Env record supplies
the outcome of every local-filesystem test, tilde expansion, and child
process invocation (subprocess.run); run returning none models an
exception raised during the invocation (timeout, missing binary,
network failure).  Each operation returns, together with its result, the
trace of child-process commands it actually invoked, so that claims of
the form "without invoking any copy command" are statable.  Fallible
dictionary lookups (config[...] outside a try block) surface as Except.
-/

/-- JSON-like scalar values stored in the configuration dictionary; the
tool only ever stores strings and integers. -/
inductive JVal where
  | str (s : String)
  | num (n : Int)
deriving DecidableEq

/-- A configuration record: the embedding of a Python dict as an ordered
association list (keys kept unique by cfgSet). -/
abbrev Config := List (String × JVal)

/-- Dictionary lookup config[k] and config.get(k). -/
def cfgGet : Config → String → Option JVal
  | [], _ => none
  | (k, v) :: rest, key => if k = key then some v else cfgGet rest key

/-- Dictionary lookup with default, config.get(k, d). -/
def cfgGetD (c : Config) (k : String) (d : JVal) : JVal :=
  (cfgGet c k).getD d

/-- Dictionary assignment config[k] = v: replaces the binding in place when
the key is already present, otherwise appends (Python dict semantics). -/
def cfgSet : Config → String → JVal → Config
  | [], k, v => [(k, v)]
  | (k', v') :: rest, k, v =>
    if k' = k then (k, v) :: rest else (k', v') :: cfgSet rest k v

/-- Python truthiness of a dict: true iff nonempty. -/
def cfgTruthy (c : Config) : Bool := !c.isEmpty

/-- Python truthiness of a scalar: nonempty string, nonzero number. -/
def jTruthy : JVal → Bool
  | .str s => s != ""
  | .num n => n != 0

/-- Value of a most-significant-first list of decimal digit characters
(Python int() on a digit string). -/
def digitsVal (ds : List Char) : Nat :=
  ds.foldl (fun a c => a * 10 + (c.toNat - 48)) 0

/-- Fuel-driven decimal rendering of a positive natural number. -/
def natCharsAux : Nat → Nat → List Char
  | 0, _ => []
  | fuel + 1, n =>
    if n = 0 then [] else natCharsAux fuel (n / 10) ++ [Nat.digitChar (n % 10)]

/-- Decimal representation of a natural number, as produced by Python str().  -/
def natChars (n : Nat) : List Char := if n = 0 then ['0'] else natCharsAux n n

/-- Decimal representation of an integer, as produced by Python str(). -/
def intChars (n : Int) : List Char :=
  if n < 0 then '-' :: natChars n.natAbs else natChars n.toNat

/-- Python str() applied to a config value, as used by str(port) and by
f-string interpolation. -/
def jvalToStr : JVal → String
  | .str s => s
  | .num n => String.mk (intChars n)

/-- Outcome of a completed child process (subprocess.CompletedProcess). -/
structure ProcResult where
  returncode : Int
  stdout : String
  stderr : String
deriving DecidableEq

/-- An argument vector handed to subprocess.run. -/
abbrev Cmd := List String

/-- The ambient effects of one run: local path existence tests, tilde
expansion, and the behaviour of child-process invocations.  run returning
none models subprocess.run raising (timeout, missing binary, network
failure). -/
structure Env where
  pathExists : String → Bool
  expanduser : String → String
  run : Cmd → Option ProcResult

/-- Errors that escape an operation: EOF on an exhausted input stream and
an uncaught dictionary KeyError. -/
inductive PyErr where
  | eof
  | keyError (k : String)
deriving DecidableEq

/-- Whether pat occurs at the head of hay. -/
def startsWithL : List Char → List Char → Bool
  | _, [] => true
  | [], _ :: _ => false
  | h :: hs, p :: ps => h == p && startsWithL hs ps

/-- Whether pat occurs as a contiguous sublist of hay (Python "in"). -/
def containsSub : List Char → List Char → Bool
  | [], pat => pat.isEmpty
  | h :: t, pat => startsWithL (h :: t) pat || containsSub t pat

/-- Python substring test: pat in s. -/
def strContains (s pat : String) : Bool := containsSub s.data pat.data

/-- The guard config.get('auth_method') == 'key' and config.get('key_path')
used by every invocation builder before adding the -i argument. -/
def keyBranchOn (c : Config) : Bool :=
  (cfgGet c "auth_method" == some (JVal.str "key")) &&
    (match cfgGet c "key_path" with
     | some v => jTruthy v
     | none => false)

/-- The key branch is taken but key_path holds a non-string value, so
os.path.expanduser raises TypeError inside the surrounding try block. -/
def keyTypeErr (c : Config) : Bool :=
  keyBranchOn c &&
    (match cfgGet c "key_path" with
     | some (JVal.num _) => true
     | _ => false)

/-- The optional ['-i', key] arguments: present when the key branch guard
holds and the expanded key file exists on disk. -/
def sshKeyArgs (c : Config) (env : Env) : List String :=
  if keyBranchOn c then
    match cfgGet c "key_path" with
    | some (JVal.str s) =>
      if env.pathExists (env.expanduser s) then ["-i", env.expanduser s] else []
    | _ => []
  else []

/-- The ssh invocation built by test_ssh_connection, ensure_remote_directory
and list_remote_files: ssh [-i key] -p port hostname payload. -/
def sshCmdFor (c : Config) (env : Env) (h payload : String) : Cmd :=
  ["ssh"] ++ sshKeyArgs c env ++
    ["-p", jvalToStr (cfgGetD c "port" (JVal.num 22)), h, payload]

/-- The marker echoed by the probe's remote command. -/
def sshMarker : String := "SSH connection test successful"

/-- test_ssh_connection: run a fixed echo over ssh with a timeout and
require exit 0 plus the marker in stdout; every exception (KeyError on
hostname, TypeError from expanduser or subprocess, timeout) is caught and
yields false. -/
def test_ssh_connection (c : Config) (env : Env) : Bool × List Cmd :=
  match cfgGet c "hostname" with
  | none => (false, [])
  | some (JVal.num _) => (false, [])
  | some (JVal.str h) =>
    if keyTypeErr c then (false, [])
    else
      (match env.run (sshCmdFor c env h "echo \"SSH connection test successful\"") with
        | none => false
        | some r => (r.returncode == 0) && strContains r.stdout sshMarker,
        [sshCmdFor c env h "echo \"SSH connection test successful\""])

/-- ensure_remote_directory: mkdir -p over ssh; success iff exit 0; every
exception is caught and yields false. -/
def ensure_remote_directory (c : Config) (rd : JVal) (env : Env) : Bool × List Cmd :=
  match cfgGet c "hostname" with
  | none => (false, [])
  | some (JVal.num _) => (false, [])
  | some (JVal.str h) =>
    if keyTypeErr c then (false, [])
    else
      (match env.run (sshCmdFor c env h ("mkdir -p " ++ jvalToStr rd)) with
        | none => false
        | some r => r.returncode == 0,
        [sshCmdFor c env h ("mkdir -p " ++ jvalToStr rd)])

/-- list_remote_files: ls -la over ssh against the configured directory;
empty config is rejected up front, all other failures are caught inside
the try block and yield false. -/
def list_remote_files (c : Config) (env : Env) : Bool × List Cmd :=
  if cfgTruthy c = false then (false, [])
  else
    match cfgGet c "hostname" with
    | none => (false, [])
    | some (JVal.num _) => (false, [])
    | some (JVal.str h) =>
      match cfgGet c "remote_dir" with
      | none => (false, [])
      | some rd =>
        if keyTypeErr c then (false, [])
        else
          (match env.run (sshCmdFor c env h ("ls -la " ++ jvalToStr rd)) with
            | none => false
            | some r => r.returncode == 0,
            [sshCmdFor c env h ("ls -la " ++ jvalToStr rd)])

/-- The scp invocation built for one file:
scp -P port [-i key] [-v] file hostname:remote_dir/. -/
def scpCmd (c : Config) (hv rv : JVal) (verbose : Bool) (env : Env) (f : String) : Cmd :=
  ["scp", "-P", jvalToStr (cfgGetD c "port" (JVal.num 22))] ++ sshKeyArgs c env ++
    (if verbose then ["-v"] else []) ++
    [f, jvalToStr hv ++ ":" ++ jvalToStr rv ++ "/"]

/-- One iteration of the push loop: a missing local file is skipped (no
invocation, no success), a TypeError inside the per-file try block is
caught (no invocation, no success), otherwise scp runs and succeeds on
exit status 0. -/
def pushFile (c : Config) (hv rv : JVal) (verbose : Bool) (env : Env) (f : String) :
    Bool × List Cmd :=
  if env.pathExists f = false then (false, [])
  else if keyTypeErr c then (false, [])
  else
    (match env.run (scpCmd c hv rv verbose env f) with
      | none => false
      | some r => r.returncode == 0,
      [scpCmd c hv rv verbose env f])

/-- The push loop: tallies successful copies over the file list in order. -/
def pushLoop (c : Config) (hv rv : JVal) (verbose : Bool) (env : Env) :
    List String → Nat × List Cmd
  | [] => (0, [])
  | f :: rest =>
    ((if (pushFile c hv rv verbose env f).1 then 1 else 0) + (pushLoop c hv rv verbose env rest).1,
      (pushFile c hv rv verbose env f).2 ++ (pushLoop c hv rv verbose env rest).2)

/-- push_files: reject empty config or empty file list, read hostname and
remote_dir (uncaught KeyError when absent), ensure the remote directory
(abort on failure), then copy each file and report success iff the tally
equals the total length of the input list. -/
def push_files (files : List String) (c : Config) (verbose : Bool) (env : Env) :
    Except PyErr Bool × List Cmd :=
  if cfgTruthy c = false then (.ok false, [])
  else if files.isEmpty then (.ok false, [])
  else
    match cfgGet c "hostname" with
    | none => (.error (.keyError "hostname"), [])
    | some hv =>
      match cfgGet c "remote_dir" with
      | none => (.error (.keyError "remote_dir"), [])
      | some rv =>
        if (ensure_remote_directory c rv env).1 = false then
          (.ok false, (ensure_remote_directory c rv env).2)
        else
          (.ok ((pushLoop c hv rv verbose env files).1 == files.length),
            (ensure_remote_directory c rv env).2 ++ (pushLoop c hv rv verbose env files).2)

/-! JSON serialization of the configuration record, mirroring
json.dump(config, f, indent=2): an object written over several lines with
two-space indentation, string values quoted with backslash escapes for the
quote and backslash characters, integer values in decimal.  Control and
non-ASCII characters are carried through unescaped by this model, whereas
json.dump escapes them; both encodings decode back to the same string, so
round-trip statements are unaffected. -/

/-- Opening brace character. -/
def lbrace : Char := Char.ofNat 123

/-- Closing brace character. -/
def rbrace : Char := Char.ofNat 125

/-- JSON whitespace. -/
def isWsChar (c : Char) : Bool :=
  (c == ' ') || (c == '\n') || (c == '\t') || (c == '\r')

/-- Drop leading JSON whitespace. -/
def skipWs : List Char → List Char
  | [] => []
  | c :: rest => if isWsChar c then skipWs rest else c :: rest

/-- Escape one character of a JSON string body. -/
def escChar (c : Char) : List Char :=
  if c = '"' ∨ c = '\\' then ['\\', c] else [c]

/-- Escape a JSON string body. -/
def escList : List Char → List Char
  | [] => []
  | c :: rest => escChar c ++ escList rest

/-- Serialize one scalar value. -/
def serializeJValChars : JVal → List Char
  | .str s => '"' :: (escList s.data ++ ['"'])
  | .num n => intChars n

/-- Serialize one member line, two-space indentation included. -/
def serializeMember (k : String) (v : JVal) : List Char :=
  [' ', ' ', '"'] ++ (escList k.data ++ ['"', ':', ' '] ++ serializeJValChars v)

/-- Serialize the member lines, separated by comma plus newline. -/
def serializeMembersChars : Config → List Char
  | [] => []
  | [(k, v)] => serializeMember k v
  | (k, v) :: rest => serializeMember k v ++ ',' :: '\n' :: serializeMembersChars rest

/-- Serialize a whole record as json.dump(config, f, indent=2) renders it. -/
def serializeConfigChars (c : Config) : List Char :=
  match c with
  | [] => [lbrace, rbrace]
  | _ => lbrace :: '\n' :: (serializeMembersChars c ++ ['\n', rbrace])

/-- save_config: serialize the record to the configuration file; the model
returns the new file content. -/
def save_config (c : Config) : Option String :=
  some (String.mk (serializeConfigChars c))

/-- Decode a JSON string body one character at a time; the flag records
that the previous character was an unconsumed backslash. -/
def parseEsc : Bool → List Char → Option (List Char × List Char)
  | _, [] => none
  | true, d :: rest =>
    if d = '"' ∨ d = '\\' then (parseEsc false rest).map (fun p => (d :: p.1, p.2))
    else none
  | false, c :: rest =>
    if c = '"' then some ([], rest)
    else if c = '\\' then parseEsc true rest
    else (parseEsc false rest).map (fun p => (c :: p.1, p.2))

/-- Parse a JSON string body after the opening quote, returning the decoded
content and the remainder after the closing quote. -/
def parseStringBody (cs : List Char) : Option (List Char × List Char) :=
  parseEsc false cs

/-- Split off a maximal run of decimal digit characters. -/
def spanDigits : List Char → List Char × List Char
  | [] => ([], [])
  | c :: rest =>
    if c.isDigit then
      let p := spanDigits rest
      (c :: p.1, p.2)
    else ([], c :: rest)

/-- Split a list into head and tail. -/
def headTail : List Char → Option (Char × List Char)
  | [] => none
  | c :: t => some (c, t)

/-- Parse one scalar value: a quoted string or a decimal integer. -/
def parseJVal (cs : List Char) : Option (JVal × List Char) :=
  (headTail cs).bind fun ct =>
  if ct.1 = '"' then
    (parseStringBody ct.2).map fun p => (JVal.str (String.mk p.1), p.2)
  else if ct.1 = '-' then
    if (spanDigits ct.2).1.isEmpty then none
    else some (JVal.num (-(digitsVal (spanDigits ct.2).1 : Int)), (spanDigits ct.2).2)
  else
    if (spanDigits (ct.1 :: ct.2)).1.isEmpty then none
    else some (JVal.num (digitsVal (spanDigits (ct.1 :: ct.2)).1 : Int),
      (spanDigits (ct.1 :: ct.2)).2)

/-- Parse one member: whitespace, quoted key, colon, value. -/
def parseMember (cs : List Char) : Option ((String × JVal) × List Char) :=
  (headTail (skipWs cs)).bind fun ct =>
  if ct.1 = '"' then
    (parseStringBody ct.2).bind fun kp =>
    (headTail (skipWs kp.2)).bind fun ct2 =>
    if ct2.1 = ':' then (parseJVal (skipWs ct2.2)).map fun p => ((String.mk kp.1, p.1), p.2)
    else none
  else none

/-- Parse a comma-separated member sequence; fuel bounds the recursion and
only needs to exceed the member count. -/
def parseMembers : Nat → List Char → Option (Config × List Char)
  | 0, _ => none
  | fuel + 1, cs =>
    (parseMember cs).bind fun kvr =>
    (headTail (skipWs kvr.2)).elim (some ([kvr.1], [])) fun ct =>
      if ct.1 = ',' then (parseMembers fuel ct.2).map fun p => (kvr.1 :: p.1, p.2)
      else some ([kvr.1], ct.1 :: ct.2)

/-- Parse a whole configuration file (json.load): a single object with
string keys and string or integer values, nothing but whitespace after it. -/
def parseConfig (s : String) : Option Config :=
  (headTail (skipWs s.data)).bind fun ct =>
  if ct.1 = lbrace then
    (headTail (skipWs ct.2)).bind fun ct2 =>
    if ct2.1 = rbrace then (if (skipWs ct2.2).isEmpty then some [] else none)
    else
      (parseMembers (ct.2.length + 1) ct.2).bind fun p =>
      (headTail (skipWs p.2)).bind fun ct3 =>
      if ct3.1 = rbrace then (if (skipWs ct3.2).isEmpty then some p.1 else none)
      else none
  else none

/-- load_config: an absent file yields an empty record; a file that fails
to parse is warned about and also yields an empty record. -/
def load_config (file : Option String) : Config :=
  (file.bind fun s => parseConfig s).getD []

/-! The interactive configurator.  Prompt answers are modelled as a finite
list of strings consumed in order; input() on an exhausted list raises
EOFError.  Prompt loops consume one answer per iteration, so they are
structurally recursive on the remaining answers. -/

/-- Python whitespace as removed by str.strip(). -/
def isPyWs (c : Char) : Bool :=
  (c == ' ') || (c == '\t') || (c == '\n') || (c == '\r') ||
    (c == Char.ofNat 11) || (c == Char.ofNat 12)

/-- Python str.strip() as applied to every prompt answer. -/
def pyStrip (s : String) : String :=
  String.mk (((s.data.dropWhile isPyWs).reverse.dropWhile isPyWs).reverse)

/-- Python str.isdigit(): nonempty and all decimal digits. -/
def pyIsDigit (s : String) : Bool := !s.data.isEmpty && s.data.all Char.isDigit

/-- Read one prompt answer, stripped. -/
def takeInput : List String → Option (String × List String)
  | [] => none
  | s :: rest => some (pyStrip s, rest)

/-- The hostname prompt loop of the create flow: repeat until nonempty. -/
def promptHostname : List String → Option (String × List String)
  | [] => none
  | s :: rest =>
    let t := pyStrip s
    if t = "" then promptHostname rest else some (t, rest)

/-- The authentication-method prompt loop of the create flow: repeat until
the answer is 1 (key) or 2 (password). -/
def promptAuth : List String → Option (String × List String)
  | [] => none
  | s :: rest =>
    let t := pyStrip s
    if t = "1" then some ("key", rest)
    else if t = "2" then some ("password", rest)
    else promptAuth rest

/-- The record the create flow assembles before the key-path prompt:
hostname as entered, port defaulting to 22 unless a digit string was given,
remote directory defaulting to ~/fpga_work, and the chosen auth method. -/
def createBase (host portS rdS am : String) : Config :=
  cfgSet
    (cfgSet
      (cfgSet (cfgSet [] "hostname" (.str host)) "port"
        (.num (if pyIsDigit portS then (digitsVal portS.data : Int) else 22)))
      "remote_dir" (.str (if rdS = "" then "~/fpga_work" else rdS)))
    "auth_method" (.str am)

/-- The key-path entry of the create flow, defaulting to ~/.ssh/id_rsa on a
blank answer. -/
def createKeyed (base : Config) (kpS : String) : Config :=
  cfgSet base "key_path" (.str (if kpS = "" then "~/.ssh/id_rsa" else kpS))

/-- The record built by the create flow's prompt sequence, together with
the unconsumed answers; none models EOFError. -/
def create_build (inputs : List String) : Option (Config × List String) :=
  (promptHostname inputs).bind fun hp =>
  (takeInput hp.2).bind fun pp =>
  (takeInput pp.2).bind fun rp =>
  (promptAuth rp.2).bind fun ap =>
  if ap.1 = "key" then
    (takeInput ap.2).map fun kp => (createKeyed (createBase hp.1 pp.1 rp.1 ap.1) kp.1, kp.2)
  else some (createBase hp.1 pp.1 rp.1 ap.1, ap.2)

/-- Read one prompt answer and continue, raising EOFError on an exhausted
input stream. -/
def bindInput {α : Type} (inputs : List String)
    (f : String × List String → Except PyErr α) : Except PyErr α :=
  match takeInput inputs with
  | none => .error .eof
  | some p => f p


/-- Final step of the edit flow's prompt sequence: read config['auth_method']
(an uncaught KeyError when absent) and, when it reads key, run the key-path
prompt, where a blank answer keeps whatever key_path the record already has. -/
def editFinish (c4 : Config) (rest : List String) : Except PyErr (Config × List String) :=
  match cfgGet c4 "auth_method" with
  | none => .error (.keyError "auth_method")
  | some am =>
    if am = JVal.str "key" then
      bindInput rest fun kp =>
        .ok (if kp.1 = "" then c4 else cfgSet c4 "key_path" (.str kp.1), kp.2)
    else .ok (c4, rest)

/-- Hostname prompt of the edit flow: blank keeps the existing value. -/
def editHostname (existing : Config) (ans : String) : Config :=
  if ans = "" then existing else cfgSet existing "hostname" (.str ans)

/-- Port prompt of the edit flow: only a digit string updates the port. -/
def editPort (c : Config) (ans : String) : Config :=
  if pyIsDigit ans then cfgSet c "port" (.num (digitsVal ans.data : Int)) else c

/-- Remote-directory prompt of the edit flow: blank keeps the existing value. -/
def editRemoteDir (c : Config) (ans : String) : Config :=
  if ans = "" then c else cfgSet c "remote_dir" (.str ans)

/-- Auth-method prompt of the edit flow: 1 switches to key, 2 to password,
anything else keeps the existing value. -/
def editAuth (c : Config) (ans : String) : Config :=
  if ans = "1" then cfgSet c "auth_method" (.str "key")
  else if ans = "2" then cfgSet c "auth_method" (.str "password")
  else c

/-- The record built by the edit flow's prompt sequence: blank answers keep
the existing field, a digit string updates the port, answers 1 and 2 switch
the auth method, and the key-path prompt runs only when the resulting auth
method reads key. -/
def edit_build (existing : Config) (inputs : List String) :
    Except PyErr (Config × List String) :=
  bindInput inputs fun hp =>
  bindInput hp.2 fun pp =>
  bindInput pp.2 fun rp =>
  bindInput rp.2 fun ap =>
  editFinish
    (editAuth (editRemoteDir (editPort (editHostname existing hp.1) pp.1) rp.1) ap.1) ap.2

/-- Shared tail of both flows: probe the candidate record; on success save
it and return it, on failure return an empty record and leave the stored
file untouched. -/
def finishFlow (c : Config) (env : Env) (fs : Option String) : Config × Option String :=
  if (test_ssh_connection c env).1 then (c, save_config c) else ([], fs)

/-- The edit flow end to end: build, probe, persist on success. -/
def edit_ssh_config (existing : Config) (inputs : List String) (env : Env)
    (fs : Option String) : Except PyErr (Config × Option String) :=
  match edit_build existing inputs with
  | .error e => .error e
  | .ok p => .ok (finishFlow p.1 env fs)

/-- The create flow end to end (the fresh-record part of setup): build,
probe, persist on success. -/
def setup_fresh (inputs : List String) (env : Env) (fs : Option String) :
    Except PyErr (Config × Option String) :=
  match create_build inputs with
  | none => .error .eof
  | some p => .ok (finishFlow p.1 env fs)

/-- The option menu shown by setup when a configuration already exists:
1 edits, 2 overwrites via the create flow, 3 cancels with an empty record
and an untouched file, anything else re-prompts. -/
def setupMenu (existing : Config) (inputs : List String) (env : Env)
    (fs : Option String) : Except PyErr (Config × Option String) :=
  match inputs with
  | [] => .error .eof
  | s :: rest =>
    let t := pyStrip s
    if t = "1" then edit_ssh_config existing rest env fs
    else if t = "2" then setup_fresh rest env fs
    else if t = "3" then .ok ([], fs)
    else setupMenu existing rest env fs

/-- setup_ssh_config: dispatch to the menu when a configuration is already
stored, else run the create flow directly. -/
def setup_ssh_config (inputs : List String) (env : Env) (fs : Option String) :
    Except PyErr (Config × Option String) :=
  let existing := load_config fs
  if cfgTruthy existing then setupMenu existing inputs env fs
  else setup_fresh inputs env fs

/-! Concrete fixtures shared by witnesses and counterexamples. -/

/-- A representative full configuration record using key authentication. -/
def cfgSample : Config :=
  [("hostname", .str "pi@192.168.1.100"), ("port", .num 22),
   ("remote_dir", .str "~/fpga_work"), ("auth_method", .str "key"),
   ("key_path", .str "~/.ssh/id_rsa")]

/-- A non-empty configuration record missing remote_dir. -/
def cfgHostOnly : Config := [("hostname", .str "pi@host")]

/-- A non-empty configuration record missing hostname. -/
def cfgDirOnly : Config := [("remote_dir", .str "~/work")]

/-- Environment in which nothing exists locally and every child process
invocation raises. -/
def envNull : Env := ⟨fun _ => false, id, fun _ => none⟩

/-- Environment in which every path exists and every invocation exits 0
with the probe marker on stdout. -/
def envOk : Env :=
  ⟨fun _ => true, id, fun _ => some ⟨0, "SSH connection test successful\n", ""⟩⟩

/-- Environment in which every invocation completes with exit status 1. -/
def envFail : Env := ⟨fun _ => true, id, fun _ => some ⟨1, "", "error"⟩⟩

/-- The auth_method field when it holds a string. -/
def authVal (c : Config) : Option String :=
  match cfgGet c "auth_method" with
  | some (.str s) => some s
  | _ => none

/-- Whether key_path is present and holds a non-empty string. -/
def hasKeyPath (c : Config) : Bool :=
  match cfgGet c "key_path" with
  | some (.str s) => s != ""
  | _ => false

/-- The data-model invariant as the claim states it: auth_method is key or
password, and key_path is present and non-empty exactly when it is key. -/
def invFull (c : Config) : Prop :=
  (authVal c = some "key" ∨ authVal c = some "password") ∧
    (authVal c = some "key" ↔ hasKeyPath c = true)

instance invFullDecidable (c : Config) : Decidable (invFull c) :=
  inferInstanceAs (Decidable ((authVal c = some "key" ∨ authVal c = some "password") ∧
    (authVal c = some "key" ↔ hasKeyPath c = true)))

/-- The list does not begin with a decimal digit. -/
def headNotDigit (cs : List Char) : Prop :=
  ∀ ch, cs.head? = some ch → ch.isDigit = false

/-- Every character is JSON whitespace. -/
def allWsChars (cs : List Char) : Prop := ∀ ch ∈ cs, isWsChar ch = true

/-- The list does not begin with a comma. -/
def headNotComma (cs : List Char) : Prop :=
  ∀ ch, cs.head? = some ch → ch ≠ ','

/-! Association-list (dict) lemmas. -/

theorem bindInput_nil {α : Type} (f : String × List String → Except PyErr α) :
    bindInput [] f = .error .eof := rfl

theorem bindInput_cons {α : Type} (s : String) (t : List String)
    (f : String × List String → Except PyErr α) :
    bindInput (s :: t) f = f (pyStrip s, t) := rfl

theorem cfgGet_cfgSet_self (c : Config) (k : String) (v : JVal) :
    cfgGet (cfgSet c k v) k = some v := by
  induction c with
  | nil => simp [cfgSet, cfgGet]
  | cons kv rest ih =>
    obtain ⟨k', v'⟩ := kv
    by_cases h : k' = k
    · simp [cfgSet, h, cfgGet]
    · simp [cfgSet, h, cfgGet, ih]

theorem cfgGet_cfgSet_ne (c : Config) (k k2 : String) (v : JVal) (h : k ≠ k2) :
    cfgGet (cfgSet c k v) k2 = cfgGet c k2 := by
  induction c with
  | nil => simp [cfgSet, cfgGet, h]
  | cons kv rest ih =>
    obtain ⟨k', v'⟩ := kv
    by_cases h' : k' = k
    · subst h'
      simp [cfgSet, cfgGet, h]
    · simp [cfgSet, h', cfgGet, ih]

/-! Lemmas about the push loop. -/

theorem pushLoop_fst (c : Config) (hv rv : JVal) (verbose : Bool) (env : Env)
    (files : List String) :
    (pushLoop c hv rv verbose env files).1 =
      files.countP (fun f => (pushFile c hv rv verbose env f).1) := by
  induction files with
  | nil => rfl
  | cons f rest ih =>
    simp [pushLoop, List.countP_cons, ih, Nat.add_comm]

theorem pushFile_true_iff (c : Config) (hv rv : JVal) (verbose : Bool) (env : Env)
    (f : String) (hk : keyTypeErr c = false) :
    (pushFile c hv rv verbose env f).1 = true ↔
      env.pathExists f = true ∧
        ∃ r, env.run (scpCmd c hv rv verbose env f) = some r ∧ r.returncode = 0 := by
  unfold pushFile
  cases hpe : env.pathExists f with
  | false => simp [hpe]
  | true =>
    cases hrun : env.run (scpCmd c hv rv verbose env f) with
    | none => simp [hpe, hk, hrun]
    | some r => simp [hpe, hk, hrun, beq_iff_eq]


/-- Claim C2: push rejects immediately with result false and an empty
invocation trace when the path list is empty (any configuration) or the
configuration is empty (any path list). -/
theorem claim_C2_push_rejects_empty (c : Config) (files : List String) (verbose : Bool)
    (env : Env) :
    push_files [] c verbose env = (.ok false, []) ∧
      push_files files [] verbose env = (.ok false, []) := by
  constructor
  · unfold push_files
    cases hc : cfgTruthy c <;> simp [hc]
  · rfl

/-- Claim C10: push raises an uncaught KeyError on a non-empty configuration
missing remote_dir (or hostname), while the connection probe and the remote
lister guard the same lookups with exception handlers and return false. -/
theorem claim_C10_push_keyerror_unguarded :
    (push_files ["a.txt"] cfgHostOnly false envNull).1 = .error (.keyError "remote_dir") ∧
    (push_files ["a.txt"] cfgDirOnly false envNull).1 = .error (.keyError "hostname") ∧
    (test_ssh_connection cfgDirOnly envNull).1 = false ∧
    (test_ssh_connection cfgHostOnly envNull).1 = false ∧
    (list_remote_files cfgHostOnly envNull).1 = false ∧
    (list_remote_files cfgDirOnly envNull).1 = false :=
  ⟨by decide, by decide, by decide, by decide, by decide, by decide⟩

/-- Claim C3: the probe returns true exactly when its single ssh invocation
ran, exited 0, and printed the marker; every other outcome (missing field,
TypeError, exception during the invocation, nonzero exit, absent marker)
yields false. -/
theorem claim_C3_probe_false_unless_marker (c : Config) (env : Env) :
    (test_ssh_connection c env).1 = true ↔
      ∃ cmd r, (test_ssh_connection c env).2 = [cmd] ∧ env.run cmd = some r ∧
        r.returncode = 0 ∧ strContains r.stdout sshMarker = true := by
  unfold test_ssh_connection
  cases hh : cfgGet c "hostname" with
  | none => simp
  | some hv =>
    cases hv with
    | num n => simp
    | str h =>
      cases hk : keyTypeErr c with
      | true => simp
      | false =>
        cases hrun : env.run (sshCmdFor c env h "echo \"SSH connection test successful\"") with
        | none => simp [hrun]
        | some r => simp [hrun, beq_iff_eq, Bool.and_eq_true, and_assoc]

/-- Reading config['auth_method'] in the final step of the edit flow. -/
theorem editFinish_eq (c : Config) (rest : List String) (am : JVal)
    (h : cfgGet c "auth_method" = some am) :
    editFinish c rest =
      if am = JVal.str "key" then
        bindInput rest fun kp =>
          .ok (if kp.1 = "" then c else cfgSet c "key_path" (.str kp.1), kp.2)
      else .ok (c, rest) := by
  unfold editFinish
  rw [h]

/-- A record without auth_method makes the edit flow raise KeyError. -/
theorem editFinish_none (c : Config) (rest : List String)
    (h : cfgGet c "auth_method" = none) :
    editFinish c rest = .error (.keyError "auth_method") := by
  unfold editFinish
  rw [h]

/-- Claim C8: editing with a blank answer at every prompt rebuilds exactly
the existing record, field for field (stated for records that carry the
auth_method field the edit flow reads). -/
theorem claim_C8_edit_blank_frame (existing : Config) (am : JVal)
    (h : cfgGet existing "auth_method" = some am) :
    ∃ rest, edit_build existing ["", "", "", "", ""] = .ok (existing, rest) := by
  have hstep : edit_build existing ["", "", "", "", ""] = editFinish existing [""] := rfl
  rw [hstep, editFinish_eq existing [""] am h]
  by_cases hk : am = JVal.str "key"
  · refine ⟨[], ?_⟩
    rw [if_pos hk]
    rfl
  · refine ⟨[""], ?_⟩
    rw [if_neg hk]

/-- Claim C8 witness at a concrete password-auth record. -/
theorem claim_C8_witness :
    cfgGet [("hostname", JVal.str "pi@h"), ("auth_method", JVal.str "password")]
        "auth_method" = some (JVal.str "password") ∧
      ∃ rest, edit_build [("hostname", JVal.str "pi@h"), ("auth_method", JVal.str "password")]
        ["", "", "", "", ""] =
        .ok ([("hostname", JVal.str "pi@h"), ("auth_method", JVal.str "password")], rest) :=
  ⟨by decide,
    claim_C8_edit_blank_frame
      [("hostname", JVal.str "pi@h"), ("auth_method", JVal.str "password")]
      (JVal.str "password") (by decide)⟩

/-- Claim C9: switching the auth method to password during edit (blank
answers elsewhere) leaves hostname, port and remote_dir untouched. -/
theorem claim_C9_edit_password_frame (existing : Config) :
    ∃ c rest, edit_build existing ["", "", "", "2"] = .ok (c, rest) ∧
      cfgGet c "hostname" = cfgGet existing "hostname" ∧
      cfgGet c "port" = cfgGet existing "port" ∧
      cfgGet c "remote_dir" = cfgGet existing "remote_dir" ∧
      cfgGet c "auth_method" = some (.str "password") := by
  refine ⟨cfgSet existing "auth_method" (.str "password"), [], ?_, ?_, ?_, ?_, ?_⟩
  · have hstep : edit_build existing ["", "", "", "2"] =
        editFinish (cfgSet existing "auth_method" (.str "password")) [] := rfl
    rw [hstep, editFinish_eq _ [] (JVal.str "password") (cfgGet_cfgSet_self _ _ _)]
    rw [if_neg (by decide)]
  · exact cfgGet_cfgSet_ne _ _ _ _ (by decide)
  · exact cfgGet_cfgSet_ne _ _ _ _ (by decide)
  · exact cfgGet_cfgSet_ne _ _ _ _ (by decide)
  · exact cfgGet_cfgSet_self _ _ _

/-- Every command the directory-ensure step invokes is an ssh command. -/
theorem ensure_trace_head (c : Config) (rd : JVal) (env : Env) :
    ∀ cmd ∈ (ensure_remote_directory c rd env).2, cmd.head? = some "ssh" := by
  unfold ensure_remote_directory
  cases hh : cfgGet c "hostname" with
  | none => simp
  | some hv =>
    cases hv with
    | num n => simp
    | str h =>
      cases hk : keyTypeErr c with
      | true => simp
      | false => simp [sshCmdFor]

/-- Claim C6: with a usable configuration and a non-empty path list, push
runs the directory-ensure invocation first — its trace is the prefix of the
push trace — and when that step fails push stops with false, its whole trace
being the ensure step's ssh commands, so no copy command is attempted. -/
theorem claim_C6_ensure_runs_first (c : Config) (files : List String) (verbose : Bool)
    (env : Env) (hv rv : JVal) (h1 : cfgTruthy c = true) (h2 : files ≠ [])
    (h3 : cfgGet c "hostname" = some hv) (h4 : cfgGet c "remote_dir" = some rv) :
    ((ensure_remote_directory c rv env).1 = true →
      (push_files files c verbose env).2 =
        (ensure_remote_directory c rv env).2 ++ (pushLoop c hv rv verbose env files).2) ∧
    ((ensure_remote_directory c rv env).1 = false →
      push_files files c verbose env = (.ok false, (ensure_remote_directory c rv env).2) ∧
        ∀ cmd ∈ (push_files files c verbose env).2, cmd.head? = some "ssh") := by
  have hne : files.isEmpty = false := by
    cases files with
    | nil => exact absurd rfl h2
    | cons a t => rfl
  constructor
  · intro he
    simp [push_files, h1, hne, h3, h4, he]
  · intro he
    have hpush : push_files files c verbose env =
        (.ok false, (ensure_remote_directory c rv env).2) := by
      simp [push_files, h1, hne, h3, h4, he]
    refine ⟨hpush, ?_⟩
    rw [hpush]
    exact ensure_trace_head c rv env

/-- Claim C6 witness: concrete configuration and environment in which the
mkdir invocation exits 1, so push aborts with only that ssh command traced. -/
theorem claim_C6_witness :
    cfgTruthy cfgSample = true ∧
    cfgGet cfgSample "hostname" = some (JVal.str "pi@192.168.1.100") ∧
    cfgGet cfgSample "remote_dir" = some (JVal.str "~/fpga_work") ∧
    (((ensure_remote_directory cfgSample (JVal.str "~/fpga_work") envFail).1 = true →
      (push_files ["a.txt"] cfgSample false envFail).2 =
        (ensure_remote_directory cfgSample (JVal.str "~/fpga_work") envFail).2 ++
          (pushLoop cfgSample (JVal.str "pi@192.168.1.100") (JVal.str "~/fpga_work")
            false envFail ["a.txt"]).2) ∧
    ((ensure_remote_directory cfgSample (JVal.str "~/fpga_work") envFail).1 = false →
      push_files ["a.txt"] cfgSample false envFail =
        (.ok false, (ensure_remote_directory cfgSample (JVal.str "~/fpga_work") envFail).2) ∧
        ∀ cmd ∈ (push_files ["a.txt"] cfgSample false envFail).2,
          cmd.head? = some "ssh")) :=
  ⟨by decide, by decide, by decide,
    claim_C6_ensure_runs_first cfgSample ["a.txt"] false envFail
      (JVal.str "pi@192.168.1.100") (JVal.str "~/fpga_work")
      (by decide) (by decide) (by decide) (by decide)⟩

/-- Claim C1 (amended): once push's guards pass (non-empty configuration
with hostname and remote_dir, non-empty path list, string key_path if the
key branch is active, successful directory-ensure), push returns true iff
every listed path exists locally and its scp invocation exits 0 —
equivalently, push returns exactly the test that the success tally equals
the input length. -/
theorem claim_C1_push_true_iff_all_copied (c : Config) (files : List String) (verbose : Bool)
    (env : Env) (hv rv : JVal) (h1 : cfgTruthy c = true) (h2 : files ≠ [])
    (h3 : cfgGet c "hostname" = some hv) (h4 : cfgGet c "remote_dir" = some rv)
    (h5 : (ensure_remote_directory c rv env).1 = true) (h6 : keyTypeErr c = false) :
    ((push_files files c verbose env).1 = .ok true ↔
      ∀ f ∈ files, env.pathExists f = true ∧
        ∃ r, env.run (scpCmd c hv rv verbose env f) = some r ∧ r.returncode = 0) ∧
    (push_files files c verbose env).1 =
      .ok ((pushLoop c hv rv verbose env files).1 == files.length) := by
  have hne : files.isEmpty = false := by
    cases files with
    | nil => exact absurd rfl h2
    | cons a t => rfl
  have hpush : (push_files files c verbose env).1 =
      .ok ((pushLoop c hv rv verbose env files).1 == files.length) := by
    simp [push_files, h1, hne, h3, h4, h5]
  refine ⟨?_, hpush⟩
  rw [hpush, pushLoop_fst]
  constructor
  · intro hok
    have hb : (files.countP (fun f => (pushFile c hv rv verbose env f).1) ==
        files.length) = true := Except.ok.inj hok
    have hb2 : files.countP (fun f => (pushFile c hv rv verbose env f).1) = files.length := by
      rwa [beq_iff_eq] at hb
    have hall := List.countP_eq_length.mp hb2
    intro f hf
    exact (pushFile_true_iff c hv rv verbose env f h6).mp (hall f hf)
  · intro hall
    have hb2 : files.countP (fun f => (pushFile c hv rv verbose env f).1) = files.length :=
      List.countP_eq_length.mpr
        (fun f hf => (pushFile_true_iff c hv rv verbose env f h6).mpr (hall f hf))
    rw [hb2]
    simp

/-- Claim C1 counterexample: at the empty path list the claimed equivalence
fails — the right side holds vacuously (and the success tally 0 equals the
total 0) yet push returns false. -/
theorem claim_C1_counterexample :
    ¬ ((push_files [] cfgSample false envOk).1 = .ok true ↔
      ∀ f ∈ ([] : List String), envOk.pathExists f = true ∧
        ∃ r, envOk.run (scpCmd cfgSample (JVal.str "pi@192.168.1.100")
          (JVal.str "~/fpga_work") false envOk f) = some r ∧ r.returncode = 0) := by
  intro h
  have h2 : (push_files [] cfgSample false envOk).1 = .ok true :=
    h.mpr (fun f hf => absurd hf (List.not_mem_nil f))
  have h3 : (push_files [] cfgSample false envOk).1 = .ok false := by decide
  rw [h3] at h2
  simp at h2

/-! The configurator data-model invariant and the two flows. -/


theorem authVal_some (c : Config) (s : String) :
    authVal c = some s ↔ cfgGet c "auth_method" = some (.str s) := by
  unfold authVal
  cases h : cfgGet c "auth_method" with
  | none => simp
  | some v => cases v <;> simp

theorem promptAuth_mem (inputs : List String) (s : String) (rest : List String)
    (h : promptAuth inputs = some (s, rest)) : s = "key" ∨ s = "password" := by
  induction inputs with
  | nil => simp [promptAuth] at h
  | cons a t ih =>
    unfold promptAuth at h
    by_cases h1 : pyStrip a = "1"
    · rw [if_pos h1] at h
      injection h with hp
      exact Or.inl (congrArg Prod.fst hp).symm
    · rw [if_neg h1] at h
      by_cases h2 : pyStrip a = "2"
      · rw [if_pos h2] at h
        injection h with hp
        exact Or.inr (congrArg Prod.fst hp).symm
      · rw [if_neg h2] at h
        exact ih h

theorem editChain_get_auth (existing : Config) (a1 a2 a3 : String) :
    cfgGet (editRemoteDir (editPort (editHostname existing a1) a2) a3) "auth_method" =
      cfgGet existing "auth_method" := by
  unfold editHostname editPort editRemoteDir
  split_ifs <;> simp [cfgGet_cfgSet_ne]

theorem editChain_get_key_path (existing : Config) (a1 a2 a3 : String) :
    cfgGet (editRemoteDir (editPort (editHostname existing a1) a2) a3) "key_path" =
      cfgGet existing "key_path" := by
  unfold editHostname editPort editRemoteDir
  split_ifs <;> simp [cfgGet_cfgSet_ne]

theorem editAuth_get_key_path (c : Config) (a : String) :
    cfgGet (editAuth c a) "key_path" = cfgGet c "key_path" := by
  unfold editAuth
  split_ifs <;> simp [cfgGet_cfgSet_ne]

/-- Claim C5 (amended): every record the create flow builds satisfies the
full invariant — auth_method is key or password and key_path is present and
non-empty iff it is key; a record the edit flow builds has auth_method key,
password, or inherited unchanged, and when its auth_method is key its
key_path is either present and non-empty or inherited unchanged from the
existing record (so neither direction of the iff holds unconditionally for
the edit flow). -/
theorem claim_C5_auth_invariant :
    (∀ (inputs : List String) (c : Config) (rest : List String),
      create_build inputs = some (c, rest) → invFull c) ∧
    (∀ (existing : Config) (inputs : List String) (c : Config) (rest : List String),
      edit_build existing inputs = .ok (c, rest) →
        (authVal c = some "key" ∨ authVal c = some "password" ∨
          cfgGet c "auth_method" = cfgGet existing "auth_method") ∧
        (authVal c = some "key" →
          hasKeyPath c = true ∨ cfgGet c "key_path" = cfgGet existing "key_path")) := by
  constructor
  · intro inputs c rest h
    unfold create_build at h
    rcases hh : promptHostname inputs with _ | hp
    · simp only [hh, Option.none_bind] at h
      simp at h
    simp only [hh, Option.some_bind] at h
    rcases hp2 : takeInput hp.2 with _ | pp
    · simp only [hp2, Option.none_bind] at h
      simp at h
    simp only [hp2, Option.some_bind] at h
    rcases hp3 : takeInput pp.2 with _ | rp
    · simp only [hp3, Option.none_bind] at h
      simp at h
    simp only [hp3, Option.some_bind] at h
    rcases hp4 : promptAuth rp.2 with _ | ap
    · simp only [hp4, Option.none_bind] at h
      simp at h
    simp only [hp4, Option.some_bind] at h
    rcases promptAuth_mem rp.2 ap.1 ap.2 (by rw [hp4]) with hk | hk
    · rw [if_pos hk] at h
      rcases hp5 : takeInput ap.2 with _ | kp
      · simp only [hp5, Option.map_none'] at h
        simp at h
      simp only [hp5, Option.map_some'] at h
      have hc : c = createKeyed (createBase hp.1 pp.1 rp.1 ap.1) kp.1 :=
        ((Prod.mk.injEq _ _ _ _).mp (Option.some.inj h).symm).1
      subst hc
      rw [hk]
      refine ⟨Or.inl rfl, ?_, fun _ => rfl⟩
      intro _
      show ((if kp.1 = "" then "~/.ssh/id_rsa" else kp.1) != "") = true
      by_cases hkp : kp.1 = ""
      · rw [if_pos hkp]
        decide
      · rw [if_neg hkp]
        simpa using hkp
    · rw [hk] at h
      rw [if_neg (by decide)] at h
      have hc : c = createBase hp.1 pp.1 rp.1 "password" :=
        ((Prod.mk.injEq _ _ _ _).mp (Option.some.inj h).symm).1
      subst hc
      refine ⟨Or.inr rfl, ?_, ?_⟩
      · intro hfalse
        exact absurd (show some "password" = some "key" from hfalse) (by decide)
      · intro hfalse
        exact absurd (show false = true from hfalse) (by decide)
  · intro existing inputs c rest h
    unfold edit_build at h
    rcases inputs with _ | ⟨i1, inputs⟩
    · rw [bindInput_nil] at h
      simp at h
    simp only [bindInput_cons] at h
    rcases inputs with _ | ⟨i2, inputs⟩
    · rw [bindInput_nil] at h
      simp at h
    simp only [bindInput_cons] at h
    rcases inputs with _ | ⟨i3, inputs⟩
    · rw [bindInput_nil] at h
      simp at h
    simp only [bindInput_cons] at h
    rcases inputs with _ | ⟨i4, inputs⟩
    · rw [bindInput_nil] at h
      simp at h
    simp only [bindInput_cons] at h
    generalize ha1 : pyStrip i1 = a1 at h
    generalize ha2 : pyStrip i2 = a2 at h
    generalize ha3 : pyStrip i3 = a3 at h
    generalize ha4 : pyStrip i4 = a4 at h
    have hchainA := editChain_get_auth existing a1 a2 a3
    have hchainK := editChain_get_key_path existing a1 a2 a3
    rcases hget : cfgGet (editAuth (editRemoteDir (editPort (editHostname existing a1) a2)
        a3) a4) "auth_method" with _ | am
    · rw [editFinish_none _ _ hget] at h
      simp at h
    rw [editFinish_eq _ _ am hget] at h
    by_cases hkey : am = JVal.str "key"
    · rw [if_pos hkey] at h
      rcases inputs with _ | ⟨k1, inputs⟩
      · rw [bindInput_nil] at h
        simp at h
      simp only [bindInput_cons] at h
      have hc : c = if pyStrip k1 = "" then
          editAuth (editRemoteDir (editPort (editHostname existing a1) a2) a3) a4
        else cfgSet (editAuth (editRemoteDir (editPort (editHostname existing a1) a2)
          a3) a4) "key_path" (.str (pyStrip k1)) :=
        ((Prod.mk.injEq _ _ _ _).mp (Except.ok.inj h).symm).1
      by_cases hkp : pyStrip k1 = ""
      · rw [if_pos hkp] at hc
        subst hc
        subst hkey
        refine ⟨Or.inl ((authVal_some _ _).mpr hget), ?_⟩
        intro _
        right
        rw [editAuth_get_key_path, hchainK]
      · rw [if_neg hkp] at hc
        subst hc
        constructor
        · left
          rw [authVal_some, cfgGet_cfgSet_ne _ _ _ _ (by decide), hget, hkey]
        · intro _
          left
          show hasKeyPath _ = true
          unfold hasKeyPath
          rw [cfgGet_cfgSet_self]
          simpa using hkp
    · rw [if_neg hkey] at h
      have hc : c = editAuth (editRemoteDir (editPort (editHostname existing a1) a2)
          a3) a4 :=
        ((Prod.mk.injEq _ _ _ _).mp (Except.ok.inj h).symm).1
      subst hc
      constructor
      · unfold editAuth at hget ⊢
        by_cases hb1 : a4 = "1"
        · rw [if_pos hb1] at hget
          rw [cfgGet_cfgSet_self] at hget
          exact absurd (Option.some.inj hget).symm hkey
        · rw [if_neg hb1] at hget ⊢
          by_cases hb2 : a4 = "2"
          · rw [if_pos hb2] at hget ⊢
            right
            left
            exact (authVal_some _ _).mpr (cfgGet_cfgSet_self _ _ _)
          · rw [if_neg hb2] at hget ⊢
            right
            right
            exact hchainA
      · intro hav
        have hck : cfgGet (editAuth (editRemoteDir (editPort (editHostname existing a1)
            a2) a3) a4) "auth_method" = some (JVal.str "key") :=
          (authVal_some _ _).mp hav
        rw [hget] at hck
        exact absurd (Option.some.inj hck) hkey


/-- Claim C5 counterexample: editing a key-auth record and switching to
password persists a record that keeps the stale key_path, so key_path is
present and non-empty although auth_method is password — the iff direction
of the claimed invariant fails on a persisted record. -/
theorem claim_C5_counterexample :
    edit_ssh_config cfgSample ["", "", "", "2"] envOk none =
      .ok (cfgSet cfgSample "auth_method" (.str "password"),
        save_config (cfgSet cfgSample "auth_method" (.str "password"))) ∧
      ¬ invFull (cfgSet cfgSample "auth_method" (.str "password")) :=
  ⟨by decide, by decide⟩

/-- Claim C5 witness: a concrete create-flow record satisfying the full
invariant and a concrete edit-flow record satisfying the amended clauses. -/
theorem claim_C5_witness :
    create_build ["pi@h", "", "", "1", ""] =
      some ([("hostname", JVal.str "pi@h"), ("port", JVal.num 22),
        ("remote_dir", JVal.str "~/fpga_work"), ("auth_method", JVal.str "key"),
        ("key_path", JVal.str "~/.ssh/id_rsa")], []) ∧
    invFull [("hostname", JVal.str "pi@h"), ("port", JVal.num 22),
      ("remote_dir", JVal.str "~/fpga_work"), ("auth_method", JVal.str "key"),
      ("key_path", JVal.str "~/.ssh/id_rsa")] ∧
    edit_build cfgSample ["", "", "", "2"] =
      .ok (cfgSet cfgSample "auth_method" (.str "password"), []) ∧
    ((authVal (cfgSet cfgSample "auth_method" (.str "password")) = some "key" ∨
      authVal (cfgSet cfgSample "auth_method" (.str "password")) = some "password" ∨
      cfgGet (cfgSet cfgSample "auth_method" (.str "password")) "auth_method" =
        cfgGet cfgSample "auth_method") ∧
     (authVal (cfgSet cfgSample "auth_method" (.str "password")) = some "key" →
      hasKeyPath (cfgSet cfgSample "auth_method" (.str "password")) = true ∨
        cfgGet (cfgSet cfgSample "auth_method" (.str "password")) "key_path" =
          cfgGet cfgSample "key_path")) :=
  ⟨by decide,
    claim_C5_auth_invariant.1 ["pi@h", "", "", "1", ""] _ [] (by decide),
    by decide,
    claim_C5_auth_invariant.2 cfgSample ["", "", "", "2"] _ [] (by decide)⟩

/-- The edit flow on a successfully built record. -/
theorem edit_ssh_config_ok (existing : Config) (inputs : List String) (env : Env)
    (fs : Option String) (c : Config) (rest : List String)
    (h : edit_build existing inputs = .ok (c, rest)) :
    edit_ssh_config existing inputs env fs = .ok (finishFlow c env fs) := by
  unfold edit_ssh_config
  rw [h]

/-- The create flow on a successfully built record. -/
theorem setup_fresh_some (inputs : List String) (env : Env)
    (fs : Option String) (c : Config) (rest : List String)
    (h : create_build inputs = some (c, rest)) :
    setup_fresh inputs env fs = .ok (finishFlow c env fs) := by
  unfold setup_fresh
  rw [h]

/-- Claim C7: in both flows, once the prompt sequence builds a record, the
flow persists it exactly when the probe succeeds: a failed probe returns an
empty record with the stored file untouched, and any run that changes the
stored file had a successful probe and saved precisely the built record. -/
theorem claim_C7_persist_only_on_probe :
    (∀ (existing : Config) (inputs : List String) (env : Env) (fs : Option String)
        (c : Config) (rest : List String),
      edit_build existing inputs = .ok (c, rest) →
        ((test_ssh_connection c env).1 = false →
          edit_ssh_config existing inputs env fs = .ok ([], fs)) ∧
        (∀ c2 fs2, edit_ssh_config existing inputs env fs = .ok (c2, fs2) → fs2 ≠ fs →
          (test_ssh_connection c env).1 = true ∧ c2 = c ∧ fs2 = save_config c)) ∧
    (∀ (inputs : List String) (env : Env) (fs : Option String)
        (c : Config) (rest : List String),
      create_build inputs = some (c, rest) →
        ((test_ssh_connection c env).1 = false →
          setup_fresh inputs env fs = .ok ([], fs)) ∧
        (∀ c2 fs2, setup_fresh inputs env fs = .ok (c2, fs2) → fs2 ≠ fs →
          (test_ssh_connection c env).1 = true ∧ c2 = c ∧ fs2 = save_config c)) := by
  constructor
  · intro existing inputs env fs c rest h
    constructor
    · intro hp
      rw [edit_ssh_config_ok existing inputs env fs c rest h]
      simp [finishFlow, hp]
    · intro c2 fs2 heq hne
      rw [edit_ssh_config_ok existing inputs env fs c rest h] at heq
      unfold finishFlow at heq
      by_cases hp : (test_ssh_connection c env).1
      · rw [if_pos hp] at heq
        have := Except.ok.inj heq
        exact ⟨hp, ((Prod.mk.injEq _ _ _ _).mp this).1.symm,
          ((Prod.mk.injEq _ _ _ _).mp this).2.symm⟩
      · rw [if_neg hp] at heq
        have := ((Prod.mk.injEq _ _ _ _).mp (Except.ok.inj heq)).2
        exact absurd this.symm hne
  · intro inputs env fs c rest h
    constructor
    · intro hp
      rw [setup_fresh_some inputs env fs c rest h]
      simp [finishFlow, hp]
    · intro c2 fs2 heq hne
      rw [setup_fresh_some inputs env fs c rest h] at heq
      unfold finishFlow at heq
      by_cases hp : (test_ssh_connection c env).1
      · rw [if_pos hp] at heq
        have := Except.ok.inj heq
        exact ⟨hp, ((Prod.mk.injEq _ _ _ _).mp this).1.symm,
          ((Prod.mk.injEq _ _ _ _).mp this).2.symm⟩
      · rw [if_neg hp] at heq
        have := ((Prod.mk.injEq _ _ _ _).mp (Except.ok.inj heq)).2
        exact absurd this.symm hne

/-- Claim C7 witness: with an environment whose invocations all raise, the
edit flow's probe fails, the flow returns an empty record, and the stored
file content is unchanged. -/
theorem claim_C7_witness :
    edit_build cfgSample ["", "", "", "", ""] = .ok (cfgSample, []) ∧
    (test_ssh_connection cfgSample envNull).1 = false ∧
    edit_ssh_config cfgSample ["", "", "", "", ""] envNull (some "old") =
      .ok ([], some "old") :=
  ⟨by decide, by decide,
    (claim_C7_persist_only_on_probe.1 cfgSample ["", "", "", "", ""] envNull (some "old")
      cfgSample [] (by decide)).1 (by decide)⟩

/-- Claim C1 witness: a concrete run in which both files exist and both
copies succeed, so the equivalence and the tally form are discharged. -/
theorem claim_C1_witness :
    cfgTruthy cfgSample = true ∧
    (ensure_remote_directory cfgSample (JVal.str "~/fpga_work") envOk).1 = true ∧
    keyTypeErr cfgSample = false ∧
    (((push_files ["a.txt", "b.txt"] cfgSample false envOk).1 = .ok true ↔
      ∀ f ∈ ["a.txt", "b.txt"], envOk.pathExists f = true ∧
        ∃ r, envOk.run (scpCmd cfgSample (JVal.str "pi@192.168.1.100")
          (JVal.str "~/fpga_work") false envOk f) = some r ∧ r.returncode = 0) ∧
    (push_files ["a.txt", "b.txt"] cfgSample false envOk).1 =
      .ok ((pushLoop cfgSample (JVal.str "pi@192.168.1.100") (JVal.str "~/fpga_work")
        false envOk ["a.txt", "b.txt"]).1 == (["a.txt", "b.txt"] : List String).length)) :=
  ⟨by decide, by decide, by decide,
    claim_C1_push_true_iff_all_copied cfgSample ["a.txt", "b.txt"] false envOk
      (JVal.str "pi@192.168.1.100") (JVal.str "~/fpga_work")
      (by decide) (by decide) (by decide) (by decide) (by decide) (by decide)⟩

/-! Round trip of the JSON serialization. -/


theorem digitChar_toNat (d : Nat) (h : d < 10) : (Nat.digitChar d).toNat = 48 + d := by
  interval_cases d <;> decide

theorem digitChar_isDigit (d : Nat) (h : d < 10) : (Nat.digitChar d).isDigit = true := by
  interval_cases d <;> decide

theorem digitsVal_append_one (ds : List Char) (ch : Char) :
    digitsVal (ds ++ [ch]) = digitsVal ds * 10 + (ch.toNat - 48) := by
  unfold digitsVal
  rw [List.foldl_append]
  rfl

theorem natCharsAux_val (fuel : Nat) : ∀ n, n ≤ fuel → digitsVal (natCharsAux fuel n) = n := by
  induction fuel with
  | zero =>
    intro n hn
    interval_cases n
    rfl
  | succ f ih =>
    intro n hn
    by_cases h0 : n = 0
    · subst h0
      rfl
    · have hdiv : n / 10 ≤ f := by
        have := Nat.div_lt_self (Nat.pos_of_ne_zero h0) (by omega : 1 < 10)
        omega
      have hmod : n % 10 < 10 := Nat.mod_lt n (by omega)
      unfold natCharsAux
      rw [if_neg h0, digitsVal_append_one, ih (n / 10) hdiv, digitChar_toNat (n % 10) hmod]
      omega

theorem natCharsAux_digits (fuel : Nat) :
    ∀ n ch, ch ∈ natCharsAux fuel n → ch.isDigit = true := by
  induction fuel with
  | zero =>
    intro n ch hch
    simp [natCharsAux] at hch
  | succ f ih =>
    intro n ch hch
    by_cases h0 : n = 0
    · subst h0
      simp [natCharsAux] at hch
    · unfold natCharsAux at hch
      rw [if_neg h0] at hch
      rcases List.mem_append.mp hch with hm | hm
      · exact ih (n / 10) ch hm
      · have : ch = Nat.digitChar (n % 10) := by simpa using hm
        subst this
        exact digitChar_isDigit (n % 10) (Nat.mod_lt n (by omega))

theorem digitsVal_natChars (n : Nat) : digitsVal (natChars n) = n := by
  by_cases h0 : n = 0
  · subst h0
    rfl
  · unfold natChars
    rw [if_neg h0]
    exact natCharsAux_val n n (Nat.le_refl n)

theorem natChars_digits (n : Nat) (ch : Char) (h : ch ∈ natChars n) : ch.isDigit = true := by
  unfold natChars at h
  by_cases h0 : n = 0
  · rw [if_pos h0] at h
    have : ch = '0' := by simpa using h
    subst this
    decide
  · rw [if_neg h0] at h
    exact natCharsAux_digits n n ch h

theorem natChars_ne_nil (n : Nat) : natChars n ≠ [] := by
  unfold natChars
  by_cases h0 : n = 0
  · rw [if_pos h0]
    simp
  · rw [if_neg h0]
    cases n with
    | zero => exact absurd rfl h0
    | succ m => simp [natCharsAux]

theorem spanDigits_append (a b : List Char) (ha : ∀ ch ∈ a, ch.isDigit = true)
    (hb : headNotDigit b) : spanDigits (a ++ b) = (a, b) := by
  induction a with
  | nil =>
    cases b with
    | nil => rfl
    | cons ch t =>
      have : ch.isDigit = false := hb ch rfl
      simp [spanDigits, this]
  | cons ch t ih =>
    have hd : ch.isDigit = true := ha ch (List.mem_cons_self ch t)
    have ht : ∀ x ∈ t, x.isDigit = true := fun x hx => ha x (List.mem_cons_of_mem ch hx)
    simp [spanDigits, hd, ih ht]

theorem parseEsc_escList (s : List Char) :
    ∀ rest, parseEsc false (escList s ++ '"' :: rest) = some (s, rest) := by
  induction s with
  | nil =>
    intro rest
    show parseEsc false ([] ++ '"' :: rest) = some ([], rest)
    rw [List.nil_append, parseEsc, if_pos rfl]
  | cons ch t ih =>
    intro rest
    by_cases he : ch = '"' ∨ ch = '\\'
    · have h1 : escList (ch :: t) = '\\' :: ch :: escList t := by
        simp [escList, escChar, he]
      rw [h1, List.cons_append, List.cons_append, parseEsc]
      rw [if_neg (by decide : ¬ ('\\' : Char) = '"'), if_pos (rfl : ('\\' : Char) = '\\')]
      rw [parseEsc, if_pos he, ih rest]
      rfl
    · have h1 : escList (ch :: t) = ch :: escList t := by
        simp [escList, escChar, he]
      push_neg at he
      rw [h1, List.cons_append, parseEsc, if_neg he.1, if_neg he.2, ih rest]
      rfl

theorem parseStringBody_escList (s : List Char) (rest : List Char) :
    parseStringBody (escList s ++ '"' :: rest) = some (s, rest) :=
  parseEsc_escList s rest

theorem isDigit_ne_quote (ch : Char) (h : ch.isDigit = true) : ch ≠ '"' := by
  intro he
  subst he
  exact absurd h (by decide)

theorem isDigit_ne_minus (ch : Char) (h : ch.isDigit = true) : ch ≠ '-' := by
  intro he
  subst he
  exact absurd h (by decide)

theorem strMk_data (s : String) : String.mk s.data = s := by
  cases s
  rfl

theorem skipWs_cons_of_ws (c : Char) (t : List Char) (h : isWsChar c = true) :
    skipWs (c :: t) = skipWs t := by
  rw [skipWs, if_pos h]

theorem skipWs_cons_of_not (c : Char) (t : List Char) (h : isWsChar c = false) :
    skipWs (c :: t) = c :: t := by
  rw [skipWs, if_neg (by rw [h]; exact Bool.false_ne_true)]

theorem skipWs_append_allWs (w t : List Char) (hw : allWsChars w) :
    skipWs (w ++ t) = skipWs t := by
  induction w with
  | nil => rfl
  | cons c w2 ih =>
    rw [List.cons_append, skipWs_cons_of_ws c _ (hw c (List.mem_cons_self c w2)),
      ih (fun x hx => hw x (List.mem_cons_of_mem c hx))]

theorem skipWs_ws_cons (w : List Char) (c : Char) (t : List Char)
    (hw : allWsChars w) (hc : isWsChar c = false) :
    skipWs (w ++ c :: t) = c :: t := by
  rw [skipWs_append_allWs w _ hw, skipWs_cons_of_not c t hc]

theorem isDigit_not_ws (c : Char) (h : c.isDigit = true) : isWsChar c = false := by
  by_cases h1 : c = ' '
  · subst h1
    exact absurd h (by decide)
  by_cases h2 : c = '\n'
  · subst h2
    exact absurd h (by decide)
  by_cases h3 : c = '\t'
  · subst h3
    exact absurd h (by decide)
  by_cases h4 : c = '\r'
  · subst h4
    exact absurd h (by decide)
  simp [isWsChar, h1, h2, h3, h4]

theorem serJVal_head (v : JVal) :
    ∃ d t2, serializeJValChars v = d :: t2 ∧ isWsChar d = false := by
  cases v with
  | str s => exact ⟨'"', escList s.data ++ ['"'], rfl, by decide⟩
  | num n =>
    show ∃ d t2, intChars n = d :: t2 ∧ isWsChar d = false
    unfold intChars
    by_cases hn : n < 0
    · rw [if_pos hn]
      exact ⟨'-', natChars n.natAbs, rfl, by decide⟩
    · rw [if_neg hn]
      rcases hnc : natChars n.toNat with _ | ⟨d, t⟩
      · exact absurd hnc (natChars_ne_nil _)
      · refine ⟨d, t, rfl, ?_⟩
        refine isDigit_not_ws d (natChars_digits n.toNat d ?_)
        rw [hnc]
        exact List.mem_cons_self d t

theorem natChars_isEmpty_false (n : Nat) : (natChars n).isEmpty = false :=
  List.isEmpty_eq_false.mpr (natChars_ne_nil n)

theorem parseJVal_serialize (v : JVal) (rest : List Char) (hr : headNotDigit rest) :
    parseJVal (serializeJValChars v ++ rest) = some (v, rest) := by
  cases v with
  | str s =>
    have h1 : serializeJValChars (JVal.str s) ++ rest =
        '"' :: (escList s.data ++ '"' :: rest) := by
      show ('"' :: (escList s.data ++ ['"'])) ++ rest = _
      simp
    rw [h1]
    unfold parseJVal
    simp only [headTail, Option.some_bind]
    rw [if_pos trivial, parseStringBody_escList]
    rfl
  | num n =>
    show parseJVal (intChars n ++ rest) = some (JVal.num n, rest)
    by_cases hn : n < 0
    · have h1 : intChars n ++ rest = '-' :: (natChars n.natAbs ++ rest) := by
        unfold intChars
        rw [if_pos hn]
        simp
      rw [h1]
      unfold parseJVal
      simp only [headTail, Option.some_bind]
      rw [if_neg (by decide : ¬ ('-' : Char) = '"')]
      rw [if_pos trivial]
      rw [spanDigits_append (natChars n.natAbs) rest
        (fun ch hch => natChars_digits _ ch hch) hr]
      rw [if_neg (by rw [natChars_isEmpty_false]; exact Bool.false_ne_true)]
      rw [digitsVal_natChars]
      have hval : -((n.natAbs : Nat) : Int) = n := by omega
      rw [hval]
    · rcases hnc : natChars n.toNat with _ | ⟨d, ds⟩
      · exact absurd hnc (natChars_ne_nil _)
      have hd : d.isDigit = true := by
        refine natChars_digits n.toNat d ?_
        rw [hnc]
        exact List.mem_cons_self d ds
      have h1 : intChars n ++ rest = d :: (ds ++ rest) := by
        unfold intChars
        rw [if_neg hn, hnc]
        simp
      rw [h1]
      unfold parseJVal
      simp only [headTail, Option.some_bind]
      rw [if_neg (isDigit_ne_quote d hd), if_neg (isDigit_ne_minus d hd)]
      rw [show d :: (ds ++ rest) = natChars n.toNat ++ rest by rw [hnc]; simp]
      rw [spanDigits_append (natChars n.toNat) rest
        (fun ch hch => natChars_digits _ ch hch) hr]
      rw [if_neg (by rw [natChars_isEmpty_false]; exact Bool.false_ne_true)]
      rw [digitsVal_natChars]
      have hval : ((n.toNat : Nat) : Int) = n := by omega
      rw [hval]

theorem parseMember_serialize (w : List Char) (k : String) (v : JVal) (rest : List Char)
    (hw : allWsChars w) (hr : headNotDigit rest) :
    parseMember (w ++ serializeMember k v ++ rest) = some ((k, v), rest) := by
  have hin : w ++ serializeMember k v ++ rest =
      (w ++ [' ', ' ']) ++ '"' ::
        (escList k.data ++ '"' :: (':' :: ' ' :: (serializeJValChars v ++ rest))) := by
    unfold serializeMember
    simp
  have hww : allWsChars (w ++ [' ', ' ']) := by
    intro x hx
    rcases List.mem_append.mp hx with h | h
    · exact hw x h
    · simp at h
      subst h
      decide
  have hsw : skipWs (serializeJValChars v ++ rest) = serializeJValChars v ++ rest := by
    obtain ⟨d, t2, hshape, hdw⟩ := serJVal_head v
    rw [hshape, List.cons_append, skipWs_cons_of_not d _ hdw]
  rw [hin]
  unfold parseMember
  rw [skipWs_ws_cons (w ++ [' ', ' ']) '"' _ hww (by decide)]
  simp only [headTail, Option.some_bind]
  rw [if_pos (by trivial), parseStringBody_escList]
  simp only [Option.some_bind]
  rw [skipWs_cons_of_not ':' _ (by decide)]
  simp only [headTail, Option.some_bind]
  rw [if_pos (by trivial)]
  rw [skipWs_cons_of_ws ' ' _ (by decide), hsw, parseJVal_serialize v rest hr]
  rfl

theorem parseMembers_serialize (c : Config) :
    ∀ (w tail : List Char) (fuel : Nat), c ≠ [] → allWsChars w → c.length ≤ fuel →
      headNotDigit tail → headNotComma (skipWs tail) →
      parseMembers fuel (w ++ serializeMembersChars c ++ tail) = some (c, skipWs tail) := by
  induction c with
  | nil =>
    intro w tail fuel hne _ _ _ _
    exact absurd rfl hne
  | cons kv t ih =>
    intro w tail fuel _ hw hfuel htd htc
    obtain ⟨k, v⟩ := kv
    cases fuel with
    | zero => simp at hfuel
    | succ f =>
      cases t with
      | nil =>
        show parseMembers (f + 1) (w ++ serializeMember k v ++ tail) =
          some ([(k, v)], skipWs tail)
        rw [parseMembers, parseMember_serialize w k v tail hw htd]
        simp only [Option.some_bind]
        rcases hsw : skipWs tail with _ | ⟨ch, r⟩
        · rfl
        · have hch : ch ≠ ',' := htc ch (by rw [hsw]; rfl)
          simp only [headTail, Option.elim_some]
          rw [if_neg hch]
      | cons x t2 =>
        have hin : w ++ serializeMembersChars ((k, v) :: x :: t2) ++ tail =
            w ++ serializeMember k v ++
              (',' :: ('\n' :: (serializeMembersChars (x :: t2) ++ tail))) := by
          show w ++ (serializeMember k v ++ ',' :: '\n' :: serializeMembersChars (x :: t2)) ++
            tail = _
          simp
        rw [hin, parseMembers, parseMember_serialize w k v _ hw
          (by intro ch h; rw [(Option.some.inj h).symm]; decide)]
        simp only [Option.some_bind]
        rw [skipWs_cons_of_not ',' _ (by decide)]
        simp only [headTail, Option.elim_some]
        rw [if_pos (by trivial)]
        rw [show ('\n' :: (serializeMembersChars (x :: t2) ++ tail)) =
          ['\n'] ++ serializeMembersChars (x :: t2) ++ tail from by simp]
        rw [ih ['\n'] tail f (by simp)
          (by intro y hy; simp at hy; subst hy; decide)
          (by simp at hfuel ⊢; omega) htd htc]
        rfl

theorem serializeMembers_shape (kv : String × JVal) (t : Config) :
    ∃ z, serializeMembersChars (kv :: t) = ' ' :: ' ' :: '"' :: z := by
  obtain ⟨k, v⟩ := kv
  cases t with
  | nil =>
    exact ⟨escList k.data ++ ['"', ':', ' '] ++ serializeJValChars v, rfl⟩
  | cons x t2 =>
    refine ⟨(escList k.data ++ ['"', ':', ' '] ++ serializeJValChars v) ++
      ',' :: '\n' :: serializeMembersChars (x :: t2), ?_⟩
    show serializeMember k v ++ ',' :: '\n' :: serializeMembersChars (x :: t2) = _
    simp [serializeMember]

theorem serializeMembersChars_len (c : Config) :
    c.length ≤ (serializeMembersChars c).length := by
  induction c with
  | nil => simp [serializeMembersChars]
  | cons kv t ih =>
    obtain ⟨k, v⟩ := kv
    cases t with
    | nil => simp [serializeMembersChars, serializeMember]
    | cons x t2 =>
      show (x :: t2).length + 1 ≤
        (serializeMember k v ++ ',' :: '\n' :: serializeMembersChars (x :: t2)).length
      simp [serializeMember] at ih ⊢
      omega

theorem parseConfig_serialize (c : Config) :
    parseConfig (String.mk (serializeConfigChars c)) = some c := by
  cases c with
  | nil => decide
  | cons kv t =>
    obtain ⟨z, hz⟩ := serializeMembers_shape kv t
    have hdata : (String.mk (serializeConfigChars (kv :: t))).data =
        lbrace :: ('\n' :: (serializeMembersChars (kv :: t) ++ ['\n', rbrace])) := rfl
    unfold parseConfig
    rw [hdata, skipWs_cons_of_not lbrace _ (by decide)]
    simp only [headTail, Option.some_bind]
    rw [if_pos (by trivial)]
    have hsw2 : skipWs ('\n' :: (serializeMembersChars (kv :: t) ++ ['\n', rbrace])) =
        '"' :: (z ++ ['\n', rbrace]) := by
      rw [hz]
      rw [show ('\n' :: ((' ' :: ' ' :: '"' :: z) ++ ['\n', rbrace])) =
        ['\n', ' ', ' '] ++ '"' :: (z ++ ['\n', rbrace]) from by simp]
      exact skipWs_ws_cons _ _ _
        (by intro x hx; simp at hx; rcases hx with rfl | rfl <;> decide) (by decide)
    rw [hsw2]
    simp only [headTail, Option.some_bind]
    rw [if_neg (by decide : ¬ ('"' : Char) = rbrace)]
    rw [show ('\n' :: (serializeMembersChars (kv :: t) ++ ['\n', rbrace])) =
      ['\n'] ++ serializeMembersChars (kv :: t) ++ ['\n', rbrace] from by simp]
    rw [parseMembers_serialize (kv :: t) ['\n'] ['\n', rbrace] _ (by simp)
      (by intro y hy; simp at hy; subst hy; decide)
      (by
        have := serializeMembersChars_len (kv :: t)
        simp at this ⊢
        omega)
      (by intro ch h; rw [(Option.some.inj h).symm]; decide)
      (by intro ch h; rw [(Option.some.inj h).symm]; decide)]
    rfl

/-- Claim C4: loading an absent configuration file yields the empty record,
a file that fails to parse also loads as the empty record, and saving any
record then loading it returns the record unchanged on every field. -/
theorem claim_C4_load_save_roundtrip :
    load_config none = [] ∧
    (∀ c : Config, load_config (save_config c) = c) ∧
    (∀ s : String, parseConfig s = none → load_config (some s) = []) := by
  refine ⟨rfl, ?_, ?_⟩
  · intro c
    unfold load_config save_config
    simp only [Option.some_bind]
    rw [parseConfig_serialize c]
    rfl
  · intro s h
    unfold load_config
    simp only [Option.some_bind]
    rw [h]
    rfl

/-- Claim C4 witness: a malformed file loads as the empty record, and a
representative record survives the save-then-load round trip. -/
theorem claim_C4_witness :
    parseConfig "not json" = none ∧
    load_config (some "not json") = [] ∧
    load_config (save_config cfgSample) = cfgSample :=
  ⟨by decide, claim_C4_load_save_roundtrip.2.2 "not json" (by decide),
    claim_C4_load_save_roundtrip.2.1 cfgSample⟩
